import Mathlib

/-!
A verification development for the survey application `app.py`: the
answer-persistence layer (tagged blob store), identity resolution,
questionnaire loading, CSV export and NPS aggregation are embedded as
executable Lean definitions, and the behavioural properties of the
specification are settled against them.
-/

namespace CeoXmas

/-! ## String helpers mirroring the Python `str` operations used in `app.py` -/

/-- Python `name.startswith(pat)` on character lists. -/
def startsWith : List Char → List Char → Bool
  | [], _ => true
  | _ :: _, [] => false
  | p :: ps, c :: cs => p == c && startsWith ps cs

/-- Substring containment (`pat in s` for Python strings, for nonempty `pat`). -/
def containsSub (pat : List Char) : List Char → Bool
  | [] => pat.isEmpty
  | c :: rest => startsWith pat (c :: rest) || containsSub pat rest

/-- The scan of Python `s.replace(pat, rep)`, driven by a structural fuel
that always bounds the length of the remaining input (each step consumes at
least one character, so the fuel-0 case is unreachable when started with
`l.length`; the recursion is kept structural so that the kernel can
evaluate it). -/
def replaceAllGo (pat rep : List Char) : Nat → List Char → List Char
  | 0, l => l
  | fuel + 1, l =>
    match l with
    | [] => []
    | c :: rest =>
      match pat with
      | [] => c :: rest
      | p :: ps =>
        if startsWith (p :: ps) (c :: rest) then
          rep ++ replaceAllGo pat rep fuel (List.drop ps.length rest)
        else
          c :: replaceAllGo pat rep fuel rest

/-- Python `s.replace(pat, rep)` on character lists: a left-to-right scan,
non-overlapping matches, replacements are not re-scanned.  All call sites in
`app.py` use a nonempty `pat`. -/
def replaceAll (pat rep l : List Char) : List Char :=
  replaceAllGo pat rep l.length l

/-- Python `name.split("_", 1)`: `some (before, after)` around the first
underscore, `none` when no underscore occurs. -/
def splitFirstUnderscore : List Char → Option (List Char × List Char)
  | [] => none
  | c :: rest =>
    if c = '_' then some ([], rest)
    else
      match splitFirstUnderscore rest with
      | none => none
      | some (a, b) => some (c :: a, b)

/-! ## Filename derivation (`email_to_filename` / `filename_to_email`) -/

/-- Model of `email_to_filename` (app.py lines 252-263).  The random draw
`uuid.uuid4().hex` is passed in as `uuidHex`; the code keeps its first 12
characters for anonymous names.  For non-anonymous emails the name is the
email with `@` replaced by `_`, plus `.json`. -/
def email_to_filename (email : String) (uuidHex : String) : String :=
  if email = "" ∨ email = "anonymous" then
    "anonymous_" ++ String.mk (uuidHex.data.take 12) ++ ".json"
  else
    String.mk (replaceAll ['@'] ['_'] email.data) ++ ".json"

/-- Model of `filename_to_email` (app.py lines 266-282).  Note that the Python code
removes every occurrence of `".json"` (`str.replace`), not only a suffix. -/
def filename_to_email (filename : String) : String :=
  if filename = "" then ""
  else
    let name := replaceAll ".json".data [] filename.data
    if startsWith "anonymous_".data name ∨ name = "anonymous".data then
      "anonymous"
    else
      match splitFirstUnderscore name with
      | some (a, b) => String.mk (a ++ '@' :: b)
      | none => String.mk name

/-! ## Data model: answer records and the tagged blob store -/

/-- One respondent's answers: answer-key ↦ stored value.  Values are
modelled by their string form (which is what the CSV export renders and the
save path serializes). -/
abbrev AnswersMap := List (String × String)

/-- The JSON document `save_answers_to_keboola` uploads (app.py lines
461-469).  Timestamps are modelled as abstract instants (`Nat`). -/
structure SavedData where
  email : String
  questionnaire_id : String
  questionnaire_version : String
  submitted_at : Nat
  last_updated : Nat
  answers : AnswersMap
  deriving Repr, DecidableEq

/-- A stored Keboola file: server id, file name, tag set and content. -/
structure KFile where
  id : Nat
  name : String
  tags : List String
  content : SavedData
  deriving Repr, DecidableEq

/-- The remote tagged-blob store: files in upload order plus an id supply. -/
structure RemoteState where
  files : List KFile
  nextId : Nat
  deriving Repr, DecidableEq

/-- Model of `files_client.list(tags=[tag], limit=1000)`: the Keboola files
listing returns the files carrying `tag` newest-first (most recently uploaded
first, i.e. by descending file id), capped at 1000 entries (the code never
paginates past the cap).  Since `files` holds the store in upload order, the
listing is the reverse of the tagged sublist, truncated to the 1000 newest. -/
def listFilesByTag (tag : String) (s : RemoteState) : List KFile :=
  ((s.files.filter (fun f => f.tags.contains tag)).reverse).take 1000

/-- Model of `files_client.upload_file`: stores a fresh blob with the given name,
tags and content. -/
def upload_file (name : String) (tags : List String) (content : SavedData)
    (s : RemoteState) : RemoteState :=
  { files := s.files ++ [{ id := s.nextId, name := name, tags := tags, content := content }],
    nextId := s.nextId + 1 }

/-- Model of `delete_existing_file_from_keboola` (app.py lines 405-430): lists the
files tagged with the questionnaire tag and deletes (by id) every listed
file that also carries `email` among its tags.  Returns `true` on the happy
path (the function swallows its own errors). -/
def delete_existing_file_from_keboola (answersTag email : String)
    (s : RemoteState) : Bool × RemoteState :=
  let victims := (listFilesByTag answersTag s).filter (fun f => f.tags.contains email)
  (true, { s with files := s.files.filter (fun f => !((victims.map (·.id)).contains f.id)) })

/-! ## Local fallback files -/

/-- The JSON document `save_answers_locally` writes (app.py lines 507-511). -/
structure LocalData where
  email : String
  submitted_at : Nat
  answers : AnswersMap
  deriving Repr, DecidableEq

structure LocalFile where
  path : String
  contents : LocalData
  deriving Repr, DecidableEq

/-- Writing a local file (`open(filepath, "w")`): overwrite any file at the
same path, else create it. -/
def writeLocalFile (files : List LocalFile) (path : String) (d : LocalData) :
    List LocalFile :=
  files.filter (fun f => f.path != path) ++ [{ path := path, contents := d }]

/-- Model of `save_answers_locally` (app.py lines 499-516): the fallback write under
the fixed directory `data/out/files`, keyed by `email_to_filename` (called
afresh there, hence its own uuid draw for anonymous names). -/
def save_answers_locally (now : Nat) (uuidHex : String) (email : String)
    (answers : AnswersMap) (files : List LocalFile) : List LocalFile :=
  writeLocalFile files ("data/out/files/" ++ email_to_filename email uuidHex)
    { email := email, submitted_at := now, answers := answers }

/-! ## Saving answers -/

/-- Effect outcomes of one `save_answers_to_keboola` call: whether
`get_keboola_files_client()` yields a client, and whether the upload call
raises. -/
structure SaveEnv where
  clientAvailable : Bool
  uploadRaises : Bool
  deriving Repr, DecidableEq

/-- Remote store plus the local fallback directory. -/
structure World where
  remote : RemoteState
  localFiles : List LocalFile
  deriving Repr, DecidableEq

/-- Model of `save_answers_to_keboola` (app.py lines 433-496).  `now` is the instant
`datetime.now()` yields during the call; `uuidHex` and `uuidHexLocal` are
the uuid draws available to `email_to_filename` on the remote path and on
the local-fallback path.  The ambient `SETTINGS` are abstracted by the
questionnaire tag `answersTag` and the metadata `qId`, `qVer`.  Returns the
Python boolean result together with the updated world.  Note that the
delete step runs before the upload, so a raising upload leaves the old
record deleted (the known non-transactional supersession). -/
def save_answers_to_keboola (env : SaveEnv) (answersTag qId qVer : String)
    (now : Nat) (uuidHex uuidHexLocal : String) (email : String)
    (answers : AnswersMap) (save_email_tag : Bool) (w : World) : Bool × World :=
  if !env.clientAvailable then
    (false, { w with localFiles := save_answers_locally now uuidHexLocal email answers w.localFiles })
  else
    let filename := email_to_filename email uuidHex
    let remote1 :=
      if save_email_tag && email != "anonymous" then
        (delete_existing_file_from_keboola answersTag email w.remote).2
      else w.remote
    if env.uploadRaises then
      (false, { remote := remote1,
                localFiles := save_answers_locally now uuidHexLocal email answers w.localFiles })
    else
      let d : SavedData :=
        { email := if save_email_tag then email else "anonymous",
          questionnaire_id := qId,
          questionnaire_version := qVer,
          submitted_at := now,
          last_updated := now,
          answers := answers }
      let tags := [answersTag] ++ (if save_email_tag && email != "anonymous" then [email] else [])
      (true, { remote := upload_file filename tags d remote1, localFiles := w.localFiles })

/-- One anonymous submission: its timestamp, the uuid draws and the answers
(`save_email_tag` as passed by the caller; app.py line 1530 passes `False`). -/
structure AnonSub where
  now : Nat
  uuidHex : String
  uuidHexLocal : String
  save_email_tag : Bool
  answers : AnswersMap
  deriving Repr, DecidableEq

/-- A batch of anonymous submissions saved in sequence. -/
def saveAnonBatch (env : SaveEnv) (answersTag qId qVer : String)
    (subs : List AnonSub) (w : World) : World :=
  subs.foldl
    (fun w s =>
      (save_answers_to_keboola env answersTag qId qVer s.now s.uuidHex s.uuidHexLocal
        "anonymous" s.answers s.save_email_tag w).2)
    w

/-! ## Bulk loading for the dashboard -/

deriving instance DecidableEq for Except

/-- A listed blob as seen by `load_all_answers_from_keboola`, together with
the outcome of downloading-and-parsing it (`.error` when the download or
the JSON parse raises for that blob). -/
structure Blob where
  id : Nat
  name : String
  tags : List String
  fetch : Except Unit SavedData
  deriving Repr, DecidableEq

/-- One record as accumulated by the dashboard loader: the parsed document
plus the `_user_email` value the code adds to it. -/
structure LoadedAnswer where
  payload : SavedData
  user_email : String
  deriving Repr, DecidableEq

/-- Identity extraction in `load_all_answers_from_keboola` (app.py lines
362-377): the first tag that differs from the questionnaire tag and
contains an `@`; otherwise an `anonymous_*` file name with `.json` removed;
otherwise the blob is skipped. -/
def extract_user_email (answersTag : String) (b : Blob) : Option String :=
  match b.tags.find? (fun t => t != answersTag && t.data.contains '@') with
  | some t => some t
  | none =>
    if startsWith "anonymous_".data b.name.data then
      some (String.mk (replaceAll ".json".data [] b.name.data))
    else none

/-- Per-blob processing in the dashboard loader: skip blobs with no
identifiable owner, and skip blobs whose download or parse fails. -/
def processBlob (answersTag : String) (b : Blob) : Option LoadedAnswer :=
  match extract_user_email answersTag b with
  | none => none
  | some em =>
    match b.fetch with
    | .error _ => none
    | .ok d => some { payload := d, user_email := em }

/-- Model of `load_all_answers_from_keboola` (app.py lines 329-402), as a function of
the outcome of the initial `files_client.list` call: `[]` when no client is
available, `[]` when the listing itself raises (the outer `except`), and
otherwise every listed blob processed in order with per-blob failures
skipped. -/
def load_all_answers_from_keboola (clientAvailable : Bool) (answersTag : String)
    (listing : Except Unit (List Blob)) : List LoadedAnswer :=
  if !clientAvailable then []
  else
    match listing with
    | .error _ => []
    | .ok blobs => blobs.filterMap (processBlob answersTag)

/-! ## Identity resolution -/

def KEBOOLA_USER_HEADER : String := "X-Kbc-User-Email"

/-- Model of `get_authenticated_user` (app.py lines 561-577).  `devEmail` models
`os.environ.get("DEV_USER_EMAIL")` (`if dev_email:` is Python truthiness,
so a set-but-empty value falls through); `headers` models the attempt to
read `st.context.headers` (`.error` when that read raises). -/
def get_authenticated_user (devEmail : Option String)
    (headers : Except Unit (List (String × String))) : Option String :=
  if devEmail.getD "" != "" then devEmail
  else
    match headers with
    | .error _ => none
    | .ok hs => (hs.find? (fun p => p.1 == KEBOOLA_USER_HEADER)).map (·.2)

/-! ## Questionnaire model and CSV export -/

structure SubQuestion where
  key : String
  label : String
  deriving Repr, DecidableEq

structure Question where
  id : Nat
  qtype : String
  title : String
  subquestions : List SubQuestion
  deriving Repr, DecidableEq

/-- One record as iterated by `generate_csv_export`: the optional
`_user_email` key, the optional `email` key and the `answers` mapping. -/
structure RespRecord where
  user_email : Option String
  email : Option String
  answers : AnswersMap
  deriving Repr, DecidableEq

/-- Python `a.get("_user_email", a.get("email", "Unknown"))` (app.py line 524). -/
def respondentName (a : RespRecord) : String :=
  match a.user_email with
  | some u => u
  | none =>
    match a.email with
    | some e => e
    | none => "Unknown"

/-- Python `r.split("@")[0]` (app.py line 525). -/
def shortName (r : String) : String :=
  String.mk (r.data.takeWhile (fun c => c != '@'))

/-- Python `f'"{h}"'`: a CSV field wrapped in double quotes (no escaping at this
point; only answer cells are escaped, see `answerCell`). -/
def csvField (s : String) : String := "\"" ++ s ++ "\""

/-- Python `",".join(f'"{c}"' for c in cells) + "\n"` (app.py lines 526/536/548/556). -/
def csvRow (cells : List String) : String :=
  String.intercalate "," (cells.map csvField) ++ "\n"

/-- Python `str(answer).replace('"', '""').replace('\n', ' ')` (app.py line 546/554). -/
def escapeAnswer (s : String) : String :=
  String.mk (replaceAll ['\n'] [' '] (replaceAll ['"'] ['"', '"'] s.data))

/-- Python `answer_data.get("answers", {}).get(answer_key) or ""`, then escaped:
a missing key (and the falsy empty string) renders as the empty cell. -/
def answerCell (answers : AnswersMap) (key : String) : String :=
  escapeAnswer (((answers.find? (fun p => p.1 == key)).map (·.2)).getD "")

/-- The row block one question contributes to the CSV body (app.py lines
529-556): compound questions emit a label-only row followed by one row per
sub-question; every other type emits a single row. -/
def questionRows (allAnswers : List RespRecord) (q : Question) : String :=
  if q.qtype == "compound" then
    csvRow (("Q" ++ toString q.id ++ ": " ++ q.title) :: allAnswers.map (fun _ => "")) ++
    String.join (q.subquestions.map (fun sub =>
      csvRow (("  " ++ sub.key ++ ") " ++ sub.label) ::
        allAnswers.map (fun a => answerCell a.answers ("q" ++ toString q.id ++ "_" ++ sub.key)))))
  else
    csvRow (("Q" ++ toString q.id ++ ": " ++ q.title) ::
      allAnswers.map (fun a => answerCell a.answers ("q" ++ toString q.id)))

/-- Model of `generate_csv_export` (app.py lines 519-558), with the module-global
`QUESTIONS` passed in as `questions`. -/
def generate_csv_export (questions : List Question) (allAnswers : List RespRecord) : String :=
  csvRow ("Question" :: allAnswers.map (fun a => shortName (respondentName a))) ++
  String.join (questions.map (questionRows allAnswers))

/-! ## NPS aggregation (`render_nps_chart`, app.py lines 2512-2596)

The numeric core of the chart, over exact rationals.  The Python floats
introduce no deviation visible at the displayed precision for the values at
issue (thirds of 100), and no displayed value sits on a rounding tie. -/

/-- Python `sum(1 for s in scores if lo <= s <= hi)` (app.py lines 2542-2544). -/
def nps_bucket_count (lo hi : Int) (scores : List Int) : Nat :=
  scores.countP (fun s => decide (lo ≤ s ∧ s ≤ hi))

/-- Python `count / total * 100` (app.py lines 2547-2549). -/
def nps_pct (count total : Nat) : ℚ :=
  (count : ℚ) / (total : ℚ) * 100

/-- Python `nps_score = pro_pct - det_pct` (app.py line 2550): the subtraction is
performed on the unrounded percentages. -/
def nps_score (detMin detMax proMin proMax : Int) (scores : List Int) : ℚ :=
  nps_pct (nps_bucket_count proMin proMax scores) scores.length -
    nps_pct (nps_bucket_count detMin detMax scores) scores.length

/-- Python `f"{x:.0f}"`: rounding to the nearest integer for display.  (Python
uses ties-to-even; no value at issue sits on a tie, where `round` here
rounds half up.) -/
def fmt0 (q : ℚ) : Int := round q

/-! ## Questionnaire loading (`load_questions_from_yaml` and module init) -/

/-- A YAML scalar as it matters to the settings logic. -/
inductive YVal where
  | s (v : String)
  | i (v : Int)
  | b (v : Bool)
  | null
  deriving Repr, DecidableEq

/-- Python truthiness of a settings value, as tested by
`not yaml_settings.get(key)` (app.py line 177). -/
def YVal.falsy : YVal → Bool
  | .s v => v == ""
  | .i v => v == 0
  | .b v => v == false
  | .null => true

abbrev Settings := List (String × YVal)

/-- Python `settings.get(k)` (first binding wins; the construction below keeps at
most one binding per key). -/
def lookupKey (settings : Settings) (k : String) : Option YVal :=
  (settings.find? (fun p => p.1 == k)).map (·.2)

/-- Python `settings[k] = v`: replace any existing binding. -/
def setKey (settings : Settings) (k : String) (v : YVal) : Settings :=
  settings.filter (fun p => p.1 != k) ++ [(k, v)]

/-- Whether the required setting `k` is absent or Python-falsy in `s`. -/
def settingMissing (s : Settings) (k : String) : Bool :=
  match lookupKey s k with
  | none => true
  | some v => v.falsy

/-- Model of `DEFAULT_SETTINGS` (app.py lines 79-95); the three required keys have
no default. -/
def DEFAULT_SETTINGS : Settings :=
  [("display_mode", .s "one_by_one"),
   ("show_progress_bar", .b true),
   ("allow_back_navigation", .b true),
   ("show_question_numbers", .b true),
   ("require_all_answers", .b false),
   ("randomize_questions", .b false),
   ("randomize_options", .b false),
   ("auto_advance", .b false),
   ("auto_advance_delay", .i 600),
   ("show_balloons", .b true),
   ("welcome_message", .s ""),
   ("thank_you_message", .s "Thank you for completing the assessment!")]

/-- Model of `REQUIRED_SETTINGS` (app.py line 98). -/
def REQUIRED_SETTINGS : List String := ["questionnaire_id", "version", "title"]

/-- Python `settings = DEFAULT_SETTINGS.copy(); settings.update(yaml_settings)`
(app.py lines 185-186). -/
def mergeSettings (defaults yamlSettings : Settings) : Settings :=
  yamlSettings.foldl (fun acc p => setKey acc p.1 p.2) defaults

/-- The converters of `OVERRIDABLE_SETTINGS` (app.py lines 199-214). -/
inductive Conv where
  | str
  | boolish
  | intish
  deriving Repr, DecidableEq

/-- Applying a converter to an environment value; `none` models a raised
`ValueError`/`TypeError` (the override is then skipped with a warning).
Python `int()` additionally tolerates surrounding whitespace and a leading
`+`; no property here depends on that. -/
def applyConv : Conv → String → Option YVal
  | .str, x => some (.s x)
  | .boolish, x => some (.b (["true", "1", "yes"].contains x.toLower))
  | .intish, x => x.toInt?.map .i

/-- Model of `OVERRIDABLE_SETTINGS` (app.py lines 199-214): setting name, env var,
converter. -/
def OVERRIDABLE_SETTINGS : List (String × String × Conv) :=
  [("display_mode", "DISPLAY_MODE", .str),
   ("show_progress_bar", "SHOW_PROGRESS_BAR", .boolish),
   ("allow_back_navigation", "ALLOW_BACK_NAVIGATION", .boolish),
   ("show_question_numbers", "SHOW_QUESTION_NUMBERS", .boolish),
   ("require_all_answers", "REQUIRE_ALL_ANSWERS", .boolish),
   ("randomize_questions", "RANDOMIZE_QUESTIONS", .boolish),
   ("randomize_options", "RANDOMIZE_OPTIONS", .boolish),
   ("auto_advance", "AUTO_ADVANCE", .boolish),
   ("auto_advance_delay", "AUTO_ADVANCE_DELAY", .intish),
   ("show_balloons", "SHOW_BALLOONS", .boolish),
   ("oidc_identity", "OIDC_IDENTITY", .boolish),
   ("welcome_message", "WELCOME_MESSAGE", .str),
   ("thank_you_message", "THANK_YOU_MESSAGE", .str),
   ("title", "TITLE", .str)]

/-- Python `os.environ.get(k)` over a modelled environment. -/
def lookupEnv (env : List (String × String)) (k : String) : Option String :=
  (env.find? (fun p => p.1 == k)).map (·.2)

/-- Model of `apply_env_overrides` (app.py lines 217-233). -/
def apply_env_overrides (env : List (String × String)) (settings : Settings) : Settings :=
  OVERRIDABLE_SETTINGS.foldl
    (fun acc entry =>
      match lookupEnv env entry.2.1 with
      | none => acc
      | some v =>
        match applyConv entry.2.2 v with
        | none => acc
        | some newV => setKey acc entry.1 newV)
    settings

/-- A parsed questionnaire document: `config.get("intro_questions", [])`,
`config.get("questions", [])`, `config.get("settings", {})`. -/
structure YamlDoc where
  intro_questions : List Question
  questions : List Question
  settings : Settings
  deriving Repr, DecidableEq

/-- The environment `load_questions_from_yaml` runs in: the `QUESTIONNAIRE`
env var, the parsed `*.yaml`/`*.yml` files of the `questionnaires/` folder
(name ↦ document), and the rest of the process environment. -/
structure LoadContext where
  envQuestionnaire : Option String
  docs : List (String × YamlDoc)
  env : List (String × String)

/-- Model of `get_questionnaire_path` (app.py lines 101-141): env var first (falsy
values fall through, a set-but-missing name is an error), then single-file
auto-detection, else the not-configured state. -/
def get_questionnaire_path (ctx : LoadContext) : Option String :=
  let envQ := ctx.envQuestionnaire.getD ""
  if envQ != "" then
    if ctx.docs.any (fun d => d.1 == envQ) then some envQ else none
  else
    match ctx.docs with
    | [d] => some d.1
    | _ => none

def findDoc (docs : List (String × YamlDoc)) (name : String) : Option YamlDoc :=
  (docs.find? (fun d => d.1 == name)).map (·.2)

/-- The distinguishable failure modes of `load_questions_from_yaml`:
`notConfigured` models the `None` return (no resolvable document), and
`valueError` models the `raise ValueError(...)` listing the missing
required settings (app.py lines 177-182). -/
inductive LoadError where
  | notConfigured
  | valueError (missing : List String)
  deriving Repr, DecidableEq

/-- Model of `load_questions_from_yaml` (app.py lines 144-194), on the auto-detect
path (`config_path=None`): resolve the document, validate the required
settings before merging, then merge defaults and apply env overrides. -/
def load_questions_from_yaml (ctx : LoadContext) :
    Except LoadError (List Question × List Question × Settings) :=
  match get_questionnaire_path ctx with
  | none => .error .notConfigured
  | some fname =>
    match findDoc ctx.docs fname with
    | none => .error .notConfigured
    | some doc =>
      let missing := REQUIRED_SETTINGS.filter (settingMissing doc.settings)
      if missing.isEmpty then
        .ok (doc.intro_questions, doc.questions,
          apply_env_overrides ctx.env (mergeSettings DEFAULT_SETTINGS doc.settings))
      else
        .error (.valueError missing)

/-- The observable outcome of the module-level load (app.py lines 703-711). -/
inductive InitResult where
  | configErrorPage
  | running (intro main : List Question) (settings : Settings)
  | raisedException (missing : List String)
  deriving Repr, DecidableEq

/-- The module-level statements `_load_result = load_questions_from_yaml()`
... (app.py lines 703-711): a `None` result flips
`QUESTIONNAIRE_NOT_CONFIGURED` (the operator-facing error page); the raised
`ValueError` is caught nowhere in `app.py` and propagates out of module
initialization. -/
def moduleInit (ctx : LoadContext) : InitResult :=
  match load_questions_from_yaml ctx with
  | .error .notConfigured => .configErrorPage
  | .error (.valueError m) => .raisedException m
  | .ok (i, m, s) => .running i m s

/-- The blob one anonymous save uploads: the upload step of
`save_answers_to_keboola` specialized to `email = "anonymous"` (the tag
list is the questionnaire tag alone, and the uuid draw keys the name). -/
def anonKFile (answersTag qId qVer : String) (fid : Nat) (s : AnonSub) : KFile :=
  { id := fid,
    name := "anonymous_" ++ String.mk (s.uuidHex.data.take 12) ++ ".json",
    tags := [answersTag],
    content := { email := "anonymous", questionnaire_id := qId,
                 questionnaire_version := qVer, submitted_at := s.now,
                 last_updated := s.now, answers := s.answers } }

/-! ## Concrete states used by counterexamples and witnesses -/

/-- A world with an empty store and an empty local directory. -/
def emptyWorld : World := ⟨⟨[], 0⟩, []⟩

/-- Content of a pre-existing anonymous record. -/
def c1FillerData : SavedData :=
  { email := "anonymous", questionnaire_id := "Q", questionnaire_version := "1",
    submitted_at := 0, last_updated := 0, answers := [] }

/-- A block of 1000 anonymous records tagged with the questionnaire tag `"T"`
(a store the app's own anonymous mode produces), with ids 1..1000: all
uploaded after the stale record below. -/
def c1Fillers : List KFile :=
  (List.range 1000).map (fun i =>
    { id := i + 1, name := "anonymous_f.json", tags := ["T"], content := c1FillerData })

/-- A stale record of the identified respondent `a@b.c`: the oldest stored
file (id 0), carrying both the questionnaire tag and the email tag. -/
def c1Stale : KFile :=
  { id := 0, name := "a_b.c.json", tags := ["T", "a@b.c"],
    content := ⟨"a@b.c", "Q", "1", 0, 0, [("q1", "old")]⟩ }

/-- The record the first identified save of the C1 counterexample uploads. -/
def c1R1 : KFile :=
  ⟨1001, email_to_filename "a@b.c" "u1", ["T", "a@b.c"],
    ⟨"a@b.c", "Q", "1", 0, 0, [("q1", "first")]⟩⟩

/-- The store holding the respondent's stale record followed (newer) by the
1000 anonymous records: the stale record sits just beyond the 1000-newest
listing window. -/
def c1CexWorld : World := ⟨⟨c1Stale :: c1Fillers, 1001⟩, []⟩

/-- A questionnaire document whose settings lack the required `version`. -/
def c3MissingDoc : YamlDoc :=
  { intro_questions := [], questions := [],
    settings := [("questionnaire_id", .s "X"), ("title", .s "T")] }

/-- A context resolving (by single-file auto-detection) to `c3MissingDoc`. -/
def c3Ctx : LoadContext :=
  { envQuestionnaire := none, docs := [("questions.yaml", c3MissingDoc)], env := [] }

/-! ## General helper lemmas -/

theorem contains_iff_mem {α : Type _} [BEq α] [LawfulBEq α] {l : List α} {a : α} :
    l.contains a = true ↔ a ∈ l :=
  List.elem_iff

/-! ## Claim C4: bulk aggregation tolerates per-blob failures -/

/-- Claim C4: when one blob in the listing fails to download or parse,
`load_all_answers_from_keboola` skips it and still returns every record
loaded from the remaining blobs — a per-blob failure never aborts the whole
listing (the function is total, so nothing is raised to the caller). -/
theorem c4_per_blob_failure_is_skipped (answersTag : String) (pre post : List Blob)
    (bad : Blob) (e : Unit) (hbad : bad.fetch = .error e) :
    load_all_answers_from_keboola true answersTag (.ok (pre ++ bad :: post)) =
      load_all_answers_from_keboola true answersTag (.ok pre) ++
        load_all_answers_from_keboola true answersTag (.ok post) := by
  have hnone : processBlob answersTag bad = none := by
    unfold processBlob
    cases h : extract_user_email answersTag bad
    · rfl
    · rw [hbad]
  simp [load_all_answers_from_keboola, List.filterMap_append, hnone]

/-- Witness for C4 at a concrete listing with a failing middle blob. -/
theorem c4_per_blob_failure_is_skipped_witness :
    load_all_answers_from_keboola true "T"
        (.ok ([⟨0, "a_b.com.json", ["T", "a@b.com"], .ok c1FillerData⟩] ++
          ⟨1, "c_d.com.json", ["T", "c@d.com"], .error ()⟩ ::
            [⟨2, "e_f.com.json", ["T", "e@f.com"], .ok c1FillerData⟩])) =
      load_all_answers_from_keboola true "T"
          (.ok [⟨0, "a_b.com.json", ["T", "a@b.com"], .ok c1FillerData⟩]) ++
        load_all_answers_from_keboola true "T"
          (.ok [⟨2, "e_f.com.json", ["T", "e@f.com"], .ok c1FillerData⟩]) :=
  c4_per_blob_failure_is_skipped "T"
    [⟨0, "a_b.com.json", ["T", "a@b.com"], .ok c1FillerData⟩]
    [⟨2, "e_f.com.json", ["T", "e@f.com"], .ok c1FillerData⟩]
    ⟨1, "c_d.com.json", ["T", "c@d.com"], .error ()⟩ () rfl

/-! ## Claim C5: identity resolution -/

/-- Claim C5: a configured (non-empty) developer override is returned
verbatim with highest priority, whatever the header read does; without an
override, a failing header read or an absent header yields `none` (no
identity, treated as anonymous by callers) rather than an error, and an
available headers mapping is consulted for the single trusted header. -/
theorem c5_get_authenticated_user_spec :
    (∀ (d : String), d ≠ "" →
      ∀ (headers : Except Unit (List (String × String))),
        get_authenticated_user (some d) headers = some d) ∧
    (get_authenticated_user none (.error ()) = none) ∧
    (∀ (hs : List (String × String)),
      (∀ p ∈ hs, p.1 ≠ KEBOOLA_USER_HEADER) →
        get_authenticated_user none (.ok hs) = none) ∧
    (∀ (hs : List (String × String)),
      get_authenticated_user none (.ok hs) =
        (hs.find? (fun p => p.1 == KEBOOLA_USER_HEADER)).map (·.2)) := by
  refine ⟨?_, ?_, ?_, ?_⟩
  · intro d hd headers
    simp [get_authenticated_user, hd]
  · rfl
  · intro hs habs
    have hfind : hs.find? (fun p => p.1 == KEBOOLA_USER_HEADER) = none := by
      rw [List.find?_eq_none]
      intro p hp
      simpa using habs p hp
    simp [get_authenticated_user, hfind]
  · intro hs
    rfl

/-- Witness for C5 at concrete inputs. -/
theorem c5_get_authenticated_user_spec_witness :
    get_authenticated_user (some "dev@x.com") (.error ()) = some "dev@x.com" ∧
    get_authenticated_user none (.ok [("Host", "h")]) = none :=
  ⟨(c5_get_authenticated_user_spec.1 "dev@x.com" (by decide) (.error ())),
   (c5_get_authenticated_user_spec.2.2.1 [("Host", "h")] (by decide))⟩

/-! ## Claim C6: local fallback on remote unavailability -/

/-- Claim C6: when no client is available or the upload raises,
`save_answers_to_keboola` returns `false` and writes the local fallback
file under `data/out/files`, keyed by the same `email_to_filename`
derivation used for the remote name. -/
theorem c6_fallback_writes_local_file (env : SaveEnv) (answersTag qId qVer : String)
    (now : Nat) (u uL email : String) (answers : AnswersMap) (stag : Bool) (w : World)
    (hfail : env.clientAvailable = false ∨ env.uploadRaises = true) :
    (save_answers_to_keboola env answersTag qId qVer now u uL email answers stag w).1 = false ∧
    (save_answers_to_keboola env answersTag qId qVer now u uL email answers stag w).2.localFiles =
      writeLocalFile w.localFiles ("data/out/files/" ++ email_to_filename email uL)
        { email := email, submitted_at := now, answers := answers } := by
  obtain ⟨ca, ur⟩ := env
  rcases hfail with h | h
  · subst h
    exact ⟨rfl, rfl⟩
  · subst h
    cases ca
    · exact ⟨rfl, rfl⟩
    · exact ⟨rfl, rfl⟩

/-- Witness for C6 at a concrete unavailable-client save. -/
theorem c6_fallback_writes_local_file_witness :
    (save_answers_to_keboola ⟨false, false⟩ "T" "Q" "1" 7 "u" "uL" "a@b.com"
        [("q1", "v")] true emptyWorld).1 = false ∧
    (save_answers_to_keboola ⟨false, false⟩ "T" "Q" "1" 7 "u" "uL" "a@b.com"
        [("q1", "v")] true emptyWorld).2.localFiles =
      writeLocalFile emptyWorld.localFiles ("data/out/files/" ++ email_to_filename "a@b.com" "uL")
        { email := "a@b.com", submitted_at := 7, answers := [("q1", "v")] } :=
  c6_fallback_writes_local_file ⟨false, false⟩ "T" "Q" "1" 7 "u" "uL" "a@b.com"
    [("q1", "v")] true emptyWorld (Or.inl rfl)

/-! ## Claim C7: `submitted_at` is regenerated on every save -/

/-- Claim C7: every successful save stores a record whose `submitted_at`
(and `last_updated`) equal the current time of that save, whatever the
prior state held — on resubmission the original `submitted_at` is never
preserved. -/
theorem c7_submitted_at_regenerated (answersTag qId qVer : String) (now : Nat)
    (u uL email : String) (answers : AnswersMap) (stag : Bool) (w : World) :
    ∃ fl f,
      ((save_answers_to_keboola ⟨true, false⟩ answersTag qId qVer now u uL email
            answers stag w).2).remote.files = fl ++ [f] ∧
      f.content.submitted_at = now ∧
      f.content.last_updated = now ∧
      f.content.answers = answers ∧
      ∀ t0, t0 ≠ now → f.content.submitted_at ≠ t0 := by
  simp only [save_answers_to_keboola, upload_file, Bool.not_true, Bool.false_eq_true,
    if_false, ite_false]
  refine ⟨_, _, rfl, rfl, rfl, rfl, ?_⟩
  intro t0 ht h
  exact ht h.symm

/-- Witness for C7: a resubmission at time 5 over a record submitted at
time 0 stores `submitted_at = 5`. -/
theorem c7_submitted_at_regenerated_witness :
    ∃ fl f,
      ((save_answers_to_keboola ⟨true, false⟩ "T" "Q" "1" 5 "u" "uL" "a@b.com"
            [("q1", "v2")] true
            ⟨⟨[⟨0, "a_b.com.json", ["T", "a@b.com"], c1FillerData⟩], 1⟩, []⟩).2).remote.files
          = fl ++ [f] ∧
      f.content.submitted_at = 5 ∧
      f.content.last_updated = 5 ∧
      f.content.answers = [("q1", "v2")] ∧
      ∀ t0, t0 ≠ 5 → f.content.submitted_at ≠ t0 :=
  c7_submitted_at_regenerated "T" "Q" "1" 5 "u" "uL" "a@b.com" [("q1", "v2")] true
    ⟨⟨[⟨0, "a_b.com.json", ["T", "a@b.com"], c1FillerData⟩], 1⟩, []⟩

/-! ## Claim C2: anonymous submissions append independent records -/

/-- One anonymous save appends exactly the fresh blob and touches nothing
else (the delete step is skipped because the identity is `"anonymous"`). -/
theorem save_anonymous_step (answersTag qId qVer : String) (s : AnonSub) (w : World) :
    (save_answers_to_keboola ⟨true, false⟩ answersTag qId qVer s.now s.uuidHex s.uuidHexLocal
        "anonymous" s.answers s.save_email_tag w).2 =
      ⟨⟨w.remote.files ++ [anonKFile answersTag qId qVer w.remote.nextId s],
        w.remote.nextId + 1⟩, w.localFiles⟩ := by
  simp [save_answers_to_keboola, upload_file, email_to_filename, anonKFile]

/-- Claim C2: a batch of anonymous saves appends one record per
submission — none of the pre-existing records is deleted, each new record
carries the submission's answers under the name derived from its uuid draw,
and distinct uuid draws (the "fresh random suffix") give pairwise distinct
storage keys.  Moreover any single save with `save_email_tag = False` or an
anonymous identity only appends (the supersession/delete step is skipped). -/
theorem c2_anonymous_saves_append_fresh_records (answersTag qId qVer : String)
    (subs : List AnonSub) (w : World) :
    (∃ newFiles,
      (saveAnonBatch ⟨true, false⟩ answersTag qId qVer subs w).remote.files =
          w.remote.files ++ newFiles ∧
      newFiles.length = subs.length ∧
      newFiles.map (·.name) =
        subs.map (fun s => "anonymous_" ++ String.mk (s.uuidHex.data.take 12) ++ ".json") ∧
      newFiles.map (·.content.answers) = subs.map (·.answers) ∧
      ((subs.map (fun s => s.uuidHex.data.take 12)).Nodup →
        (newFiles.map (·.name)).Nodup)) ∧
    (∀ (now : Nat) (u uL email : String) (ans : AnswersMap) (stag : Bool) (w1 : World),
      email = "anonymous" ∨ stag = false →
      ∃ nf, ((save_answers_to_keboola ⟨true, false⟩ answersTag qId qVer now u uL email
          ans stag w1).2).remote.files = w1.remote.files ++ [nf]) := by
  constructor
  · suffices h : ∀ (w : World), ∃ newFiles,
        (saveAnonBatch ⟨true, false⟩ answersTag qId qVer subs w).remote.files =
            w.remote.files ++ newFiles ∧
        newFiles.length = subs.length ∧
        newFiles.map (·.name) =
          subs.map (fun s => "anonymous_" ++ String.mk (s.uuidHex.data.take 12) ++ ".json") ∧
        newFiles.map (·.content.answers) = subs.map (·.answers) by
      obtain ⟨nf, h1, h2, h3, h4⟩ := h w
      refine ⟨nf, h1, h2, h3, h4, fun hnodup => ?_⟩
      rw [h3, show (fun s : AnonSub => "anonymous_" ++ String.mk (s.uuidHex.data.take 12) ++ ".json") =
        (fun l : List Char => "anonymous_" ++ String.mk l ++ ".json") ∘
          (fun s : AnonSub => s.uuidHex.data.take 12) from rfl, ← List.map_map]
      refine List.Nodup.map ?_ hnodup
      intro a b hab
      have h2 : ("anonymous_".data ++ a) ++ ".json".data =
          ("anonymous_".data ++ b) ++ ".json".data := by
        simpa [String.data_append] using congrArg String.data hab
      exact List.append_cancel_left (List.append_cancel_right h2)
    clear w
    induction subs with
    | nil => intro w; exact ⟨[], by simp [saveAnonBatch], rfl, rfl, rfl⟩
    | cons s ss ih =>
      intro w
      have hstep := save_anonymous_step answersTag qId qVer s w
      obtain ⟨nf, h1, h2, h3, h4⟩ :=
        ih ⟨⟨w.remote.files ++ [anonKFile answersTag qId qVer w.remote.nextId s],
          w.remote.nextId + 1⟩, w.localFiles⟩
      refine ⟨anonKFile answersTag qId qVer w.remote.nextId s :: nf, ?_, ?_, ?_, ?_⟩
      · have : saveAnonBatch ⟨true, false⟩ answersTag qId qVer (s :: ss) w =
            saveAnonBatch ⟨true, false⟩ answersTag qId qVer ss
              ⟨⟨w.remote.files ++ [anonKFile answersTag qId qVer w.remote.nextId s],
                w.remote.nextId + 1⟩, w.localFiles⟩ := by
          simp only [saveAnonBatch, List.foldl_cons, hstep]
        rw [this, h1]
        simp
      · simpa using h2
      · simpa [anonKFile] using h3
      · simpa [anonKFile] using h4
  · intro now u uL email ans stag w1 hskip
    have hcond : (stag && email != "anonymous") = false := by
      rcases hskip with h | h
      · subst h; simp
      · subst h; simp
    exact ⟨⟨w1.remote.nextId, email_to_filename email u, [answersTag],
        ⟨if stag then email else "anonymous", qId, qVer, now, now, ans⟩⟩,
      by simp [save_answers_to_keboola, upload_file, hcond]⟩

/-- Witness for C2: two concrete anonymous submissions with distinct uuid
draws append two records with distinct names to the empty store. -/
theorem c2_anonymous_saves_append_fresh_records_witness :
    ∃ newFiles,
      (saveAnonBatch ⟨true, false⟩ "T" "Q" "1"
          [⟨3, "aaaabbbbccccdddd", "x", false, [("q1", "a")]⟩,
           ⟨4, "eeeeffffgggghhhh", "y", false, [("q1", "b")]⟩]
          emptyWorld).remote.files =
        emptyWorld.remote.files ++ newFiles ∧
      newFiles.length = 2 ∧ (newFiles.map (·.name)).Nodup := by
  obtain ⟨nf, h1, h2, h3, h4, h5⟩ :=
    (c2_anonymous_saves_append_fresh_records "T" "Q" "1"
      [⟨3, "aaaabbbbccccdddd", "x", false, [("q1", "a")]⟩,
       ⟨4, "eeeeffffgggghhhh", "y", false, [("q1", "b")]⟩] emptyWorld).1
  exact ⟨nf, h1, by simpa using h2, h5 (by decide)⟩

/-! ## Claim C1: identified resubmission supersedes the prior record -/

/-- When at most 1000 files carry the questionnaire tag, the newest-first
listing covers them all: every stored file carrying the tag is listed. -/
theorem listFilesByTag_complete (tag : String) (s : RemoteState)
    (hcap : (s.files.filter (fun f => f.tags.contains tag)).length ≤ 1000)
    (f : KFile) (hf : f ∈ s.files) (htag : f.tags.contains tag = true) :
    f ∈ listFilesByTag tag s := by
  unfold listFilesByTag
  rw [List.take_of_length_le (by rw [List.length_reverse]; exact hcap),
    List.mem_reverse]
  exact List.mem_filter.mpr ⟨hf, htag⟩

/-- When every stored file carrying both the questionnaire tag and the email
is within the listing window (always the case when at most 1000 files carry
the questionnaire tag), the delete step removes all of them. -/
theorem delete_removes_all_matching (tag e : String) (s : RemoteState)
    (hwin : ∀ f ∈ s.files, f.tags.contains tag = true →
      f.tags.contains e = true → f ∈ listFilesByTag tag s) :
    ((delete_existing_file_from_keboola tag e s).2).files.filter
        (fun f => f.tags.contains tag && f.tags.contains e) = [] := by
  simp only [delete_existing_file_from_keboola]
  rw [List.filter_eq_nil_iff]
  intro f hf hboth
  obtain ⟨hmem, hkeep⟩ := List.mem_filter.mp hf
  obtain ⟨htag, he⟩ : f.tags.contains tag = true ∧ f.tags.contains e = true := by
    simpa using hboth
  have hlisted : f ∈ listFilesByTag tag s := hwin f hmem htag he
  simp at hkeep
  exact hkeep f hlisted (contains_iff_mem.mp he) rfl

/-- A freshly uploaded blob carrying the questionnaire tag is the newest
file in the store, so the newest-first listing always contains it: the
1000-entry cap cuts off the oldest listed entries, never the newest. -/
theorem uploaded_is_listed (tag name : String) (tags : List String) (d : SavedData)
    (s : RemoteState) (htag : tags.contains tag = true) :
    (⟨s.nextId, name, tags, d⟩ : KFile) ∈
      listFilesByTag tag (upload_file name tags d s) := by
  have hfilter : (upload_file name tags d s).files.filter
      (fun f => f.tags.contains tag) =
      s.files.filter (fun f => f.tags.contains tag) ++ [⟨s.nextId, name, tags, d⟩] := by
    show (s.files ++ [(⟨s.nextId, name, tags, d⟩ : KFile)]).filter
      (fun f => f.tags.contains tag) = _
    have hp : (fun f : KFile => f.tags.contains tag)
        (⟨s.nextId, name, tags, d⟩ : KFile) = true := htag
    rw [List.filter_append, @List.filter_cons_of_pos KFile
      (fun f => f.tags.contains tag) ⟨s.nextId, name, tags, d⟩ [] hp, List.filter_nil]
  unfold listFilesByTag
  rw [hfilter, List.reverse_append]
  exact List.mem_cons_self _ _

/-- Uploading a blob tagged with both the questionnaire tag and the email
appends it to the set of records matching that pair. -/
theorem upload_filter_both (tag e name : String) (d : SavedData) (s : RemoteState) :
    (upload_file name [tag, e] d s).files.filter
        (fun f => f.tags.contains tag && f.tags.contains e) =
      s.files.filter (fun f => f.tags.contains tag && f.tags.contains e) ++
        [⟨s.nextId, name, [tag, e], d⟩] := by
  have h1 : ([tag, e] : List String).contains tag = true :=
    contains_iff_mem.mpr (by simp)
  have h2 : ([tag, e] : List String).contains e = true :=
    contains_iff_mem.mpr (by simp)
  simp [upload_file, List.filter_append, h1, h2]

/-- A save by an identified user with the email tag is: delete the matching
records, then upload the fresh blob tagged with both tags. -/
theorem save_identified_remote (tag qId qVer e : String) (he : e ≠ "anonymous")
    (now : Nat) (u uL : String) (ans : AnswersMap) (w : World) :
    ((save_answers_to_keboola ⟨true, false⟩ tag qId qVer now u uL e ans true w).2).remote =
      upload_file (email_to_filename e u) [tag, e]
        ⟨e, qId, qVer, now, now, ans⟩
        (delete_existing_file_from_keboola tag e w.remote).2 := by
  have hne : (e != "anonymous") = true := by simpa using he
  simp [save_answers_to_keboola, hne]

/-- Whatever the store already holds, the second identified save always
supersedes the first: the blob the first save uploads (which receives id
`w0.remote.nextId`) is absent from the final store, because the
newest-first listing always reaches the newest blob, so the second delete
step finds and removes it — the 1000-entry cap can only hide records older
than the 1000 newest tagged ones. -/
theorem second_save_deletes_first_record (tag qId qVer e : String)
    (he : e ≠ "anonymous") (n1 n2 : Nat) (u1 v1 u2 v2 : String)
    (ans1 ans2 : AnswersMap) (w0 : World) :
    ∀ f ∈ ((save_answers_to_keboola ⟨true, false⟩ tag qId qVer n2 u2 v2 e ans2 true
          (save_answers_to_keboola ⟨true, false⟩ tag qId qVer n1 u1 v1 e ans1 true
            w0).2).2).remote.files, f.id ≠ w0.remote.nextId := by
  have h1 := save_identified_remote tag qId qVer e he n1 u1 v1 ans1 w0
  have h2 := save_identified_remote tag qId qVer e he n2 u2 v2 ans2
    ((save_answers_to_keboola ⟨true, false⟩ tag qId qVer n1 u1 v1 e ans1 true w0).2)
  rw [h1] at h2
  intro f hf
  rw [h2] at hf
  have hf' : f ∈ (delete_existing_file_from_keboola tag e
        (upload_file (email_to_filename e u1) [tag, e] ⟨e, qId, qVer, n1, n1, ans1⟩
          (delete_existing_file_from_keboola tag e w0.remote).2)).2.files ++
      [⟨(delete_existing_file_from_keboola tag e
            (upload_file (email_to_filename e u1) [tag, e] ⟨e, qId, qVer, n1, n1, ans1⟩
              (delete_existing_file_from_keboola tag e w0.remote).2)).2.nextId,
        email_to_filename e u2, [tag, e], ⟨e, qId, qVer, n2, n2, ans2⟩⟩] := hf
  rcases List.mem_append.mp hf' with hmem | hmem
  · have hmem' : f ∈ (upload_file (email_to_filename e u1) [tag, e]
          ⟨e, qId, qVer, n1, n1, ans1⟩
          (delete_existing_file_from_keboola tag e w0.remote).2).files.filter
        (fun g => !((((listFilesByTag tag
            (upload_file (email_to_filename e u1) [tag, e] ⟨e, qId, qVer, n1, n1, ans1⟩
              (delete_existing_file_from_keboola tag e w0.remote).2)).filter
          (fun g => g.tags.contains e)).map (·.id)).contains g.id)) := hmem
    obtain ⟨-, hkeep⟩ := List.mem_filter.mp hmem'
    intro heq
    have hF1 : (⟨(delete_existing_file_from_keboola tag e w0.remote).2.nextId,
        email_to_filename e u1, [tag, e], ⟨e, qId, qVer, n1, n1, ans1⟩⟩ : KFile) ∈
        (listFilesByTag tag
          (upload_file (email_to_filename e u1) [tag, e] ⟨e, qId, qVer, n1, n1, ans1⟩
            (delete_existing_file_from_keboola tag e w0.remote).2)).filter
          (fun g => g.tags.contains e) :=
      List.mem_filter.mpr
        ⟨uploaded_is_listed tag (email_to_filename e u1) [tag, e]
            ⟨e, qId, qVer, n1, n1, ans1⟩
            (delete_existing_file_from_keboola tag e w0.remote).2
            (contains_iff_mem.mpr (by simp)),
          contains_iff_mem.mpr (by simp)⟩
    have hid : ((((listFilesByTag tag
        (upload_file (email_to_filename e u1) [tag, e] ⟨e, qId, qVer, n1, n1, ans1⟩
          (delete_existing_file_from_keboola tag e w0.remote).2)).filter
        (fun g => g.tags.contains e)).map (·.id)).contains f.id) = true := by
      rw [heq]
      exact contains_iff_mem.mpr (List.mem_map.mpr ⟨_, hF1, rfl⟩)
    have hkeep' : (!((((listFilesByTag tag
        (upload_file (email_to_filename e u1) [tag, e] ⟨e, qId, qVer, n1, n1, ans1⟩
          (delete_existing_file_from_keboola tag e w0.remote).2)).filter
        (fun g => g.tags.contains e)).map (·.id)).contains f.id)) = true := hkeep
    rw [hid] at hkeep'
    exact absurd hkeep' (by decide)
  · rw [List.mem_singleton.mp hmem]
    show w0.remote.nextId + 1 ≠ w0.remote.nextId
    omega

/-- Claim C1 (amended): provided every record already stored for the
(identity, questionnaire tag) pair is within the newest-first listing
window — always the case when at most 1000 stored files carry the
questionnaire tag — an identified respondent (identity ≠ `"anonymous"`,
saved with the email tag) who submits twice in sequence ends with exactly
one stored record for the pair, holding the second submission's answers;
the first save's record is always deleted by the second save, since it is
the newest tagged blob and hence always listed. -/
theorem c1_two_sequential_saves_leave_one_record (tag qId qVer e : String)
    (he : e ≠ "anonymous") (n1 n2 : Nat) (u1 v1 u2 v2 : String)
    (ans1 ans2 : AnswersMap) (w0 : World)
    (hwin : ∀ f ∈ w0.remote.files, f.tags.contains tag = true →
      f.tags.contains e = true → f ∈ listFilesByTag tag w0.remote) :
    ∃ f,
      (((save_answers_to_keboola ⟨true, false⟩ tag qId qVer n2 u2 v2 e ans2 true
            (save_answers_to_keboola ⟨true, false⟩ tag qId qVer n1 u1 v1 e ans1 true
              w0).2).2).remote.files.filter
          (fun f => f.tags.contains tag && f.tags.contains e)) = [f] ∧
      f.content.answers = ans2 ∧ f.tags = [tag, e] := by
  have h1 := save_identified_remote tag qId qVer e he n1 u1 v1 ans1 w0
  have h2 := save_identified_remote tag qId qVer e he n2 u2 v2 ans2
    ((save_answers_to_keboola ⟨true, false⟩ tag qId qVer n1 u1 v1 e ans1 true w0).2)
  rw [h2, upload_filter_both, delete_removes_all_matching]
  · refine ⟨⟨(delete_existing_file_from_keboola tag e
        ((save_answers_to_keboola ⟨true, false⟩ tag qId qVer n1 u1 v1 e ans1 true
          w0).2).remote).2.nextId, email_to_filename e u2, [tag, e],
        ⟨e, qId, qVer, n2, n2, ans2⟩⟩, ?_, rfl, rfl⟩
    simp
  · rw [h1]
    intro f hf htagf hef
    have hclean := delete_removes_all_matching tag e w0.remote hwin
    have hf' : f ∈ (delete_existing_file_from_keboola tag e w0.remote).2.files ++
        [⟨(delete_existing_file_from_keboola tag e w0.remote).2.nextId,
          email_to_filename e u1, [tag, e], ⟨e, qId, qVer, n1, n1, ans1⟩⟩] := hf
    rcases List.mem_append.mp hf' with hmem | hmem
    · have hboth : (fun f => f.tags.contains tag && f.tags.contains e) f = true := by
        show (f.tags.contains tag && f.tags.contains e) = true
        rw [htagf, hef]
        rfl
      have hsurv : f ∈ (delete_existing_file_from_keboola tag e w0.remote).2.files.filter
          (fun f => f.tags.contains tag && f.tags.contains e) :=
        List.mem_filter.mpr ⟨hmem, hboth⟩
      rw [hclean] at hsurv
      exact absurd hsurv (List.not_mem_nil f)
    · rw [List.mem_singleton.mp hmem]
      exact uploaded_is_listed tag (email_to_filename e u1) [tag, e]
        ⟨e, qId, qVer, n1, n1, ans1⟩
        (delete_existing_file_from_keboola tag e w0.remote).2
        (contains_iff_mem.mpr (by simp))

/-- Witness for C1 (amended) from the empty store, where the window
hypothesis holds vacuously. -/
theorem c1_two_sequential_saves_leave_one_record_witness :
    ∃ f,
      (((save_answers_to_keboola ⟨true, false⟩ "T" "Q" "1" 1 "u2" "v2" "a@b.com"
            [("q1", "second")] true
            (save_answers_to_keboola ⟨true, false⟩ "T" "Q" "1" 0 "u1" "v1" "a@b.com"
              [("q1", "first")] true emptyWorld).2).2).remote.files.filter
          (fun f => f.tags.contains "T" && f.tags.contains "a@b.com")) = [f] ∧
      f.content.answers = [("q1", "second")] ∧ f.tags = ["T", "a@b.com"] :=
  c1_two_sequential_saves_leave_one_record "T" "Q" "1" "a@b.com" (by decide)
    0 1 "u1" "v1" "u2" "v2" [("q1", "first")] [("q1", "second")] emptyWorld
    (by intro f hf htagf hef; simp [emptyWorld] at hf)

/-- Every filler record carries the questionnaire tag. -/
theorem c1Fillers_filter_tag :
    c1Fillers.filter (fun f => f.tags.contains "T") = c1Fillers := by
  rw [List.filter_eq_self]
  intro f hf
  obtain ⟨i, _, rfl⟩ := List.mem_map.mp hf
  rfl

/-- No filler record carries the respondent's email tag. -/
theorem c1Fillers_filter_email (e : String) (hne : (["T"] : List String).contains e = false) :
    c1Fillers.filter (fun f => f.tags.contains e) = [] := by
  rw [List.filter_eq_nil_iff]
  intro f hf h
  obtain ⟨i, _, rfl⟩ := List.mem_map.mp hf
  rw [show ((⟨i + 1, "anonymous_f.json", ["T"], c1FillerData⟩ : KFile)).tags = ["T"] from rfl,
    hne] at h
  exact Bool.false_ne_true h

theorem c1Fillers_length : c1Fillers.length = 1000 := by
  simp [c1Fillers]

/-- No filler record matches the (tag, email) pair. -/
theorem c1Fillers_filter_both :
    c1Fillers.filter (fun f => f.tags.contains "T" && f.tags.contains "a@b.c") = [] := by
  rw [List.filter_eq_nil_iff]
  intro f hf h
  obtain ⟨i, _, rfl⟩ := List.mem_map.mp hf
  rw [show ((⟨i + 1, "anonymous_f.json", ["T"], c1FillerData⟩ : KFile)).tags = ["T"]
    from rfl] at h
  exact absurd h (by decide)

/-- Every record of the counterexample store carries the questionnaire tag. -/
theorem c1_all_tagged :
    (c1Stale :: c1Fillers).filter (fun f => f.tags.contains "T") =
      c1Stale :: c1Fillers := by
  rw [List.filter_eq_self]
  intro f hf
  rcases List.mem_cons.mp hf with rfl | hf
  · rfl
  · obtain ⟨i, _, rfl⟩ := List.mem_map.mp hf
    rfl

/-- In the counterexample store, exactly the stale record matches the
(tag, email) pair. -/
theorem c1_stale_fillers_filter_both :
    (c1Stale :: c1Fillers).filter
        (fun f => f.tags.contains "T" && f.tags.contains "a@b.c") = [c1Stale] := by
  have hp : (fun f : KFile => f.tags.contains "T" && f.tags.contains "a@b.c") c1Stale
      = true := by decide
  rw [@List.filter_cons_of_pos KFile
    (fun f => f.tags.contains "T" && f.tags.contains "a@b.c") c1Stale c1Fillers hp,
    c1Fillers_filter_both]

/-- The 999 newest fillers, as they appear in the second listing, carry no
email tag. -/
theorem c1_take999_no_email :
    (c1Fillers.reverse.take 999).filter (fun f => f.tags.contains "a@b.c") = [] := by
  rw [List.filter_eq_nil_iff]
  intro f hf h
  have hf' : f ∈ c1Fillers := List.mem_reverse.mp (List.take_subset _ _ hf)
  obtain ⟨i, _, rfl⟩ := List.mem_map.mp hf'
  rw [show ((⟨i + 1, "anonymous_f.json", ["T"], c1FillerData⟩ : KFile)).tags = ["T"]
    from rfl] at h
  exact absurd h (by decide)

set_option maxRecDepth 8000 in
/-- On the counterexample store, the first delete removes nothing: the
newest-first listing returns the 1000 newer anonymous fillers and cuts off
the stale record, and no filler carries the email tag. -/
theorem c1_cex_delete0 :
    (delete_existing_file_from_keboola "T" "a@b.c" ⟨c1Stale :: c1Fillers, 1001⟩).2 =
      ⟨c1Stale :: c1Fillers, 1001⟩ := by
  simp only [delete_existing_file_from_keboola, listFilesByTag]
  have hvict : (((((⟨c1Stale :: c1Fillers, 1001⟩ : RemoteState)).files.filter
      (fun f => f.tags.contains "T")).reverse).take 1000).filter
        (fun f => f.tags.contains "a@b.c") = [] := by
    rw [show ((⟨c1Stale :: c1Fillers, 1001⟩ : RemoteState)).files = c1Stale :: c1Fillers
        from rfl,
      c1_all_tagged, List.reverse_cons,
      List.take_append_of_le_length (by simp [c1Fillers_length]),
      List.take_of_length_le (by simp [c1Fillers_length]),
      List.filter_reverse, c1Fillers_filter_email "a@b.c" (by decide), List.reverse_nil]
  rw [hvict]
  simp [List.contains]

set_option maxRecDepth 8000 in
/-- On the counterexample store extended by the first save's record, the
second delete removes exactly that record: the newest-first listing now
starts with it (it is the newest blob), still cutting off the stale
record. -/
theorem c1_cex_delete1 :
    (delete_existing_file_from_keboola "T" "a@b.c"
        ⟨(c1Stale :: c1Fillers) ++ [c1R1], 1001 + 1⟩).2 =
      ⟨c1Stale :: c1Fillers, 1001 + 1⟩ := by
  simp only [delete_existing_file_from_keboola, listFilesByTag]
  have hvict : (((((⟨(c1Stale :: c1Fillers) ++ [c1R1], 1001 + 1⟩ :
      RemoteState)).files.filter
      (fun f => f.tags.contains "T")).reverse).take 1000).filter
        (fun f => f.tags.contains "a@b.c") = [c1R1] := by
    rw [show ((⟨(c1Stale :: c1Fillers) ++ [c1R1], 1001 + 1⟩ : RemoteState)).files =
        (c1Stale :: c1Fillers) ++ [c1R1] from rfl,
      List.filter_append, c1_all_tagged,
      show ([c1R1].filter (fun f => f.tags.contains "T")) = [c1R1] from rfl,
      List.reverse_append,
      show ([c1R1].reverse) = [c1R1] from rfl,
      List.reverse_cons,
      show ∀ X : List KFile, ([c1R1] ++ X).take 1000 = c1R1 :: X.take 999
        from fun X => rfl,
      List.take_append_of_le_length (by simp [c1Fillers_length])]
    have hp1 : (fun f : KFile => f.tags.contains "a@b.c") c1R1 = true := by decide
    rw [@List.filter_cons_of_pos KFile (fun f => f.tags.contains "a@b.c") c1R1
      (List.take 999 c1Fillers.reverse) hp1, c1_take999_no_email]
  rw [hvict]
  have hkeep : (((c1Stale :: c1Fillers) ++ [c1R1]).filter
      (fun f => !(([c1R1].map (·.id)).contains f.id))) = c1Stale :: c1Fillers := by
    rw [List.filter_append,
      show ([c1R1].filter (fun f => !(([c1R1].map (·.id)).contains f.id))) = []
        from rfl,
      List.append_nil, List.filter_eq_self]
    intro f hf
    rcases List.mem_cons.mp hf with rfl | hf
    · decide
    · obtain ⟨i, hi, rfl⟩ := List.mem_map.mp hf
      have hlt : i < 1000 := List.mem_range.mp hi
      show (!(([c1R1].map (·.id)).contains (i + 1))) = true
      rw [show ([c1R1].map (·.id)) = [1001] from rfl]
      have hc : (([1001] : List Nat).contains (i + 1)) = false := by
        cases hc' : (([1001] : List Nat).contains (i + 1))
        · rfl
        · exact absurd (by simpa using contains_iff_mem.mp hc') (by omega)
      rw [hc]
      rfl
  rw [hkeep]

set_option maxRecDepth 8000 in
/-- Counterexample to C1 as stated: the newest-first listing is capped at
1000 entries, so a stale record of the respondent that is older than 1000
other tagged records is never listed by the delete step; two sequential
identified saves then leave **two** stored records for the (identity,
questionnaire tag) pair — the stale one and the fresh one. -/
theorem c1_counterexample_listing_cap :
    ((save_answers_to_keboola ⟨true, false⟩ "T" "Q" "1" 1 "u2" "v2" "a@b.c"
          [("q1", "second")] true
          (save_answers_to_keboola ⟨true, false⟩ "T" "Q" "1" 0 "u1" "v1" "a@b.c"
            [("q1", "first")] true c1CexWorld).2).2.remote.files.filter
        (fun f => f.tags.contains "T" && f.tags.contains "a@b.c")).length = 2 ∧
    ¬ ∃ f,
      ((save_answers_to_keboola ⟨true, false⟩ "T" "Q" "1" 1 "u2" "v2" "a@b.c"
          [("q1", "second")] true
          (save_answers_to_keboola ⟨true, false⟩ "T" "Q" "1" 0 "u1" "v1" "a@b.c"
            [("q1", "first")] true c1CexWorld).2).2.remote.files.filter
        (fun f => f.tags.contains "T" && f.tags.contains "a@b.c")) = [f] ∧
      f.content.answers = [("q1", "second")] := by
  have h1 := save_identified_remote "T" "Q" "1" "a@b.c" (by decide) 0 "u1" "v1"
    [("q1", "first")] c1CexWorld
  have hdel0 : (delete_existing_file_from_keboola "T" "a@b.c" c1CexWorld.remote).2 =
      ⟨c1Stale :: c1Fillers, 1001⟩ := c1_cex_delete0
  rw [hdel0] at h1
  have h2 := save_identified_remote "T" "Q" "1" "a@b.c" (by decide) 1 "u2" "v2"
    [("q1", "second")]
    ((save_answers_to_keboola ⟨true, false⟩ "T" "Q" "1" 0 "u1" "v1" "a@b.c"
      [("q1", "first")] true c1CexWorld).2)
  rw [h1] at h2
  have hup1 : upload_file (email_to_filename "a@b.c" "u1") ["T", "a@b.c"]
      ⟨"a@b.c", "Q", "1", 0, 0, [("q1", "first")]⟩ ⟨c1Stale :: c1Fillers, 1001⟩ =
      ⟨(c1Stale :: c1Fillers) ++ [c1R1], 1001 + 1⟩ := rfl
  rw [hup1] at h2
  rw [c1_cex_delete1] at h2
  constructor
  · rw [h2, upload_filter_both, c1_stale_fillers_filter_both]
    simp
  · rintro ⟨f, hf, -⟩
    rw [h2, upload_filter_both, c1_stale_fillers_filter_both] at hf
    simp at hf

/-! ## Claim C8: NPS aggregation of `[2,2,9,9,9,10]` -/

/-- Counterexample to C8 as stated: the code subtracts the *unrounded*
percentages (`nps_score = pro_pct - det_pct`, app.py line 2550), giving
100/3 ≈ 33.3 (displayed as 33), so the claimed NPS of 67 − 33 = 34 is not
what the code computes or displays. -/
theorem c8_counterexample_nps_score_not_34 :
    nps_score 0 6 9 10 [2, 2, 9, 9, 9, 10] ≠ 34 ∧
    fmt0 (nps_score 0 6 9 10 [2, 2, 9, 9, 9, 10]) ≠ 34 := by
  have hs : nps_score 0 6 9 10 [2, 2, 9, 9, 9, 10] = 100 / 3 := by
    rw [nps_score, show nps_bucket_count 0 6 [2, 2, 9, 9, 9, 10] = 2 from rfl,
      show nps_bucket_count 9 10 [2, 2, 9, 9, 9, 10] = 4 from rfl]
    norm_num [nps_pct]
  constructor
  · rw [hs]
    norm_num
  · rw [hs]
    unfold fmt0
    rw [round_eq]
    norm_num

/-- Claim C8 (amended): with the default bounds, the scores
`[2,2,9,9,9,10]` yield detractors=2 (displayed 33%), passives=0,
promoters=4 (displayed 67%), and an NPS score of 200/3 − 100/3 = 100/3,
displayed (rounded) as 33 — not 67 − 33 = 34, because the subtraction
happens before display rounding. -/
theorem c8_nps_aggregation_values :
    nps_bucket_count 0 6 [2, 2, 9, 9, 9, 10] = 2 ∧
    nps_bucket_count 7 8 [2, 2, 9, 9, 9, 10] = 0 ∧
    nps_bucket_count 9 10 [2, 2, 9, 9, 9, 10] = 4 ∧
    fmt0 (nps_pct (nps_bucket_count 0 6 [2, 2, 9, 9, 9, 10])
      ([2, 2, 9, 9, 9, 10] : List Int).length) = 33 ∧
    fmt0 (nps_pct (nps_bucket_count 9 10 [2, 2, 9, 9, 9, 10])
      ([2, 2, 9, 9, 9, 10] : List Int).length) = 67 ∧
    nps_score 0 6 9 10 [2, 2, 9, 9, 9, 10] = 100 / 3 ∧
    fmt0 (nps_score 0 6 9 10 [2, 2, 9, 9, 9, 10]) = 33 := by
  have hs : nps_score 0 6 9 10 [2, 2, 9, 9, 9, 10] = 100 / 3 := by
    rw [nps_score, show nps_bucket_count 0 6 [2, 2, 9, 9, 9, 10] = 2 from rfl,
      show nps_bucket_count 9 10 [2, 2, 9, 9, 9, 10] = 4 from rfl]
    norm_num [nps_pct]
  refine ⟨rfl, rfl, rfl, ?_, ?_, hs, ?_⟩
  · rw [show nps_bucket_count 0 6 [2, 2, 9, 9, 9, 10] = 2 from rfl,
      show ([2, 2, 9, 9, 9, 10] : List Int).length = 6 from rfl,
      show nps_pct 2 6 = 100 / 3 by norm_num [nps_pct]]
    unfold fmt0
    rw [round_eq]
    norm_num
  · rw [show nps_bucket_count 9 10 [2, 2, 9, 9, 9, 10] = 4 from rfl,
      show ([2, 2, 9, 9, 9, 10] : List Int).length = 6 from rfl,
      show nps_pct 4 6 = 200 / 3 by norm_num [nps_pct]]
    unfold fmt0
    rw [round_eq]
    norm_num
  · rw [hs]
    unfold fmt0
    rw [round_eq]
    norm_num

/-! ## String lemmas about `replaceAll` -/

theorem replaceAll_nil_right (pat rep : List Char) : replaceAll pat rep [] = [] := rfl

theorem replaceAllGo_succ_cons (p : Char) (ps rep : List Char) (fuel : Nat) (c : Char)
    (l : List Char) :
    replaceAllGo (p :: ps) rep (fuel + 1) (c :: l) =
      if startsWith (p :: ps) (c :: l) then
        rep ++ replaceAllGo (p :: ps) rep fuel (List.drop ps.length l)
      else c :: replaceAllGo (p :: ps) rep fuel l := rfl

/-- The fuel is irrelevant as long as it bounds the input length. -/
theorem replaceAllGo_fuel (pat rep : List Char) :
    ∀ (f₁ f₂ : Nat) (l : List Char), l.length ≤ f₁ → l.length ≤ f₂ →
      replaceAllGo pat rep f₁ l = replaceAllGo pat rep f₂ l := by
  intro f₁
  induction f₁ with
  | zero =>
    intro f₂ l h1 h2
    have hl : l = [] := List.eq_nil_of_length_eq_zero (Nat.le_zero.mp h1)
    subst hl
    cases f₂ with
    | zero => rfl
    | succ f₂ => rfl
  | succ f ih =>
    intro f₂ l h1 h2
    cases f₂ with
    | zero =>
      have hl : l = [] := List.eq_nil_of_length_eq_zero (Nat.le_zero.mp h2)
      subst hl
      rfl
    | succ f₂ =>
      cases l with
      | nil => rfl
      | cons c rest =>
        cases pat with
        | nil => rfl
        | cons p ps =>
          rw [replaceAllGo_succ_cons, replaceAllGo_succ_cons]
          by_cases hsw : startsWith (p :: ps) (c :: rest) = true
          · rw [if_pos hsw, if_pos hsw]
            congr 1
            apply ih
            · simp only [List.length_drop]
              simp only [List.length_cons] at h1
              omega
            · simp only [List.length_drop]
              simp only [List.length_cons] at h2
              omega
          · rw [if_neg hsw, if_neg hsw]
            congr 1
            apply ih
            · simp only [List.length_cons] at h1
              omega
            · simp only [List.length_cons] at h2
              omega

theorem replaceAll_cons_eq (p : Char) (ps rep : List Char) (c : Char) (l : List Char) :
    replaceAll (p :: ps) rep (c :: l) =
      if startsWith (p :: ps) (c :: l) then
        rep ++ replaceAll (p :: ps) rep (List.drop ps.length l)
      else c :: replaceAll (p :: ps) rep l := by
  show replaceAllGo (p :: ps) rep (c :: l).length (c :: l) = _
  rw [show (c :: l).length = l.length + 1 from rfl, replaceAllGo_succ_cons]
  by_cases hsw : startsWith (p :: ps) (c :: l) = true
  · rw [if_pos hsw, if_pos hsw]
    congr 1
    apply replaceAllGo_fuel
    · simp only [List.length_drop]
      omega
    · exact Nat.le_refl _
  · rw [if_neg hsw, if_neg hsw]
    rfl

theorem startsWith_single (a c : Char) (l : List Char) :
    startsWith [a] (c :: l) = (a == c) := by
  simp [startsWith]

theorem replaceAll_single_cons (a : Char) (rep : List Char) (c : Char) (l : List Char) :
    replaceAll [a] rep (c :: l) =
      if a = c then rep ++ replaceAll [a] rep l else c :: replaceAll [a] rep l := by
  rw [replaceAll_cons_eq]
  simp [startsWith_single]

theorem replaceAll_single_eq_map (a b : Char) (l : List Char) :
    replaceAll [a] [b] l = l.map (fun c => if c = a then b else c) := by
  induction l with
  | nil => rw [replaceAll_nil_right]; rfl
  | cons c l ih =>
    rw [replaceAll_single_cons]
    by_cases h : a = c
    · subst h
      simp [ih]
    · simp [ih, h, Ne.symm h]

theorem not_mem_replaceAll_single (a b : Char) (hab : a ≠ b) (l : List Char) :
    a ∉ replaceAll [a] [b] l := by
  rw [replaceAll_single_eq_map]
  intro hmem
  obtain ⟨c, _, hc⟩ := List.mem_map.mp hmem
  by_cases h : c = a
  · rw [if_pos h] at hc
    exact hab hc.symm
  · rw [if_neg h] at hc
    exact h hc

theorem count_replaceAll_quote (l : List Char) :
    (replaceAll ['"'] ['"', '"'] l).count '"' = 2 * l.count '"' := by
  induction l with
  | nil => rw [replaceAll_nil_right]; rfl
  | cons c l ih =>
    rw [replaceAll_single_cons]
    by_cases h : '"' = c
    · subst h
      simp only [if_pos rfl, List.cons_append, List.nil_append]
      simp [List.count_cons, ih]
      omega
    · rw [if_neg h]
      simp [List.count_cons, beq_iff_eq, ih, Ne.symm h]

theorem count_quote_replaceAll_newline (l : List Char) :
    (replaceAll ['\n'] [' '] l).count '"' = l.count '"' := by
  induction l with
  | nil => rw [replaceAll_nil_right]
  | cons c l ih =>
    rw [replaceAll_single_cons]
    by_cases h : '\n' = c
    · subst h
      simp [List.count_cons, ih]
    · rw [if_neg h]
      simp [List.count_cons, ih]

/-- Escaping leaves no newline in the cell. -/
theorem escapeAnswer_no_newline (s : String) : '\n' ∉ (escapeAnswer s).data := by
  show '\n' ∉ replaceAll ['\n'] [' '] (replaceAll ['"'] ['"', '"'] s.data)
  exact not_mem_replaceAll_single '\n' ' ' (by decide) _

/-- Escaping doubles every internal double quote. -/
theorem escapeAnswer_count_quote (s : String) :
    (escapeAnswer s).data.count '"' = 2 * s.data.count '"' := by
  show (replaceAll ['\n'] [' '] (replaceAll ['"'] ['"', '"'] s.data)).count '"' = _
  rw [count_quote_replaceAll_newline, count_replaceAll_quote]

/-! ## Claim C9: CSV export escapes answer cells -/

/-- A two-cell CSV row: both cells wrapped in double quotes, separated by a
comma, terminated by a newline. -/
theorem csvRow_pair (x y : String) :
    csvRow [x, y] = "\"" ++ x ++ "\",\"" ++ y ++ "\"\n" := by
  show String.intercalate "," [csvField x, csvField y] ++ "\n" = _
  rw [show String.intercalate "," [csvField x, csvField y] =
    csvField x ++ "," ++ csvField y from rfl]
  unfold csvField
  apply String.ext
  simp [String.data_append]

/-- Claim C9: for a record set with a single respondent and one
non-compound (free-text) question whose stored answer contains an embedded
comma and newline, the CSV body renders that answer as a double-quoted
cell; the cell's content has internal double quotes doubled and contains no
newline (newlines are collapsed to spaces). -/
theorem c9_csv_answer_cell_escaped (q : Question) (r : RespRecord) (s : String)
    (hq : q.qtype ≠ "compound")
    (hfind : (r.answers.find? (fun p => p.1 == "q" ++ toString q.id)).map (·.2) = some s)
    (hcomma : ',' ∈ s.data) (hnl : '\n' ∈ s.data) :
    generate_csv_export [q] [r] =
      "\"Question\",\"" ++ shortName (respondentName r) ++ "\"\n" ++
        ("\"Q" ++ toString q.id ++ ": " ++ q.title ++ "\",\"" ++ escapeAnswer s ++ "\"\n") ∧
    '\n' ∉ (escapeAnswer s).data ∧
    (escapeAnswer s).data.count '"' = 2 * s.data.count '"' := by
  have hbeq : (q.qtype == "compound") = false := by
    rw [beq_eq_false_iff_ne]
    exact hq
  have hcell : answerCell r.answers ("q" ++ toString q.id) = escapeAnswer s := by
    unfold answerCell
    rw [hfind]
    rfl
  refine ⟨?_, escapeAnswer_no_newline s, escapeAnswer_count_quote s⟩
  have hqr : questionRows [r] q =
      csvRow ["Q" ++ toString q.id ++ ": " ++ q.title, escapeAnswer s] := by
    unfold questionRows
    simp only [hbeq, Bool.false_eq_true, if_false, List.map_cons, List.map_nil, hcell]
  show csvRow ["Question", shortName (respondentName r)] ++
    String.join [questionRows [r] q] = _
  rw [show String.join [questionRows [r] q] = questionRows [r] q from rfl, hqr,
    csvRow_pair, csvRow_pair]
  apply String.ext
  simp [String.data_append]

/-- Witness for C9 at a concrete record whose answer holds a comma, a
newline and a double quote. -/
theorem c9_csv_answer_cell_escaped_witness :
    generate_csv_export [⟨1, "text", "T1", []⟩]
        [⟨some "ann@x.com", none, [("q1", "a,b\nc\"d")]⟩] =
      "\"Question\",\"" ++ shortName (respondentName ⟨some "ann@x.com", none,
        [("q1", "a,b\nc\"d")]⟩) ++ "\"\n" ++
        ("\"Q" ++ toString (1 : Nat) ++ ": " ++ "T1" ++ "\",\"" ++
          escapeAnswer "a,b\nc\"d" ++ "\"\n") ∧
    '\n' ∉ (escapeAnswer "a,b\nc\"d").data ∧
    (escapeAnswer "a,b\nc\"d").data.count '"' = 2 * ("a,b\nc\"d" : String).data.count '"' :=
  c9_csv_answer_cell_escaped ⟨1, "text", "T1", []⟩
    ⟨some "ann@x.com", none, [("q1", "a,b\nc\"d")]⟩ "a,b\nc\"d"
    (by decide) rfl (by decide) (by decide)

/-! ## Claim C3: missing required settings -/

/-- Counterexample to C3 as stated: on a document missing the required
`version` key, `load_questions_from_yaml` raises a `ValueError` rather than
returning the not-configured state, and the exception propagates uncaught
out of module initialization (app.py line 704) — it is not surfaced as the
operator-facing `QUESTIONNAIRE_NOT_CONFIGURED` error page. -/
theorem c3_counterexample_missing_version_raises :
    load_questions_from_yaml c3Ctx = .error (.valueError ["version"]) ∧
    moduleInit c3Ctx = .raisedException ["version"] ∧
    moduleInit c3Ctx ≠ .configErrorPage := by
  refine ⟨rfl, rfl, ?_⟩
  intro h
  exact InitResult.noConfusion h

/-- Claim C3 (amended): whenever the resolved questionnaire document has a
required settings key (`questionnaire_id`, `version`, `title`) missing or
Python-falsy, `load_questions_from_yaml` raises a `ValueError` listing the
missing keys — it never returns a partially-populated definition and never
silently defaults — and that exception propagates uncaught out of module
initialization instead of producing the surfaced needs-configuration
state. -/
theorem c3_missing_required_settings_raise (ctx : LoadContext) (fname : String)
    (doc : YamlDoc) (hpath : get_questionnaire_path ctx = some fname)
    (hdoc : findDoc ctx.docs fname = some doc) (k : String)
    (hk : k ∈ REQUIRED_SETTINGS) (hmiss : settingMissing doc.settings k = true) :
    ∃ missing, missing ≠ [] ∧
      load_questions_from_yaml ctx = .error (.valueError missing) ∧
      moduleInit ctx = .raisedException missing := by
  have hmem : k ∈ REQUIRED_SETTINGS.filter (settingMissing doc.settings) :=
    List.mem_filter.mpr ⟨hk, hmiss⟩
  have hne : REQUIRED_SETTINGS.filter (settingMissing doc.settings) ≠ [] :=
    List.ne_nil_of_mem hmem
  have hempty : (REQUIRED_SETTINGS.filter (settingMissing doc.settings)).isEmpty = false := by
    cases h : (REQUIRED_SETTINGS.filter (settingMissing doc.settings)).isEmpty
    · rfl
    · exact absurd (by simpa using h) hne
  have hload : load_questions_from_yaml ctx =
      .error (.valueError (REQUIRED_SETTINGS.filter (settingMissing doc.settings))) := by
    simp [load_questions_from_yaml, hpath, hdoc, hempty]
  refine ⟨_, hne, hload, ?_⟩
  simp [moduleInit, hload]

/-- Witness for C3 (amended) at the concrete missing-`version` document. -/
theorem c3_missing_required_settings_raise_witness :
    ∃ missing, missing ≠ [] ∧
      load_questions_from_yaml c3Ctx = .error (.valueError missing) ∧
      moduleInit c3Ctx = .raisedException missing :=
  c3_missing_required_settings_raise c3Ctx "questions.yaml" c3MissingDoc rfl rfl
    "version" (by decide) (by decide)

/-! ## Prefix and substring lemmas for the filename round trip -/

theorem startsWith_iff (pat : List Char) : ∀ (l : List Char),
    startsWith pat l = true ↔ ∃ t, l = pat ++ t := by
  induction pat with
  | nil =>
    intro l
    simp [startsWith]
  | cons p ps ih =>
    intro l
    cases l with
    | nil =>
      simp [startsWith]
    | cons c cs =>
      simp only [startsWith, Bool.and_eq_true, beq_iff_eq, List.cons_append]
      constructor
      · rintro ⟨rfl, h⟩
        obtain ⟨t, rfl⟩ := (ih cs).mp h
        exact ⟨t, rfl⟩
      · rintro ⟨t, h⟩
        obtain ⟨h1, h2⟩ := List.cons.inj h
        exact ⟨h1.symm, (ih cs).mpr ⟨t, h2⟩⟩

theorem startsWith_append (pat t : List Char) : startsWith pat (pat ++ t) = true :=
  (startsWith_iff pat _).mpr ⟨t, rfl⟩

/-- The function `startsWith` only inspects a prefix of the input. -/
theorem startsWith_append_of_le (pat : List Char) : ∀ (d x : List Char),
    pat.length ≤ d.length → startsWith pat (d ++ x) = startsWith pat d := by
  induction pat with
  | nil =>
    intro d x _
    rfl
  | cons p ps ih =>
    intro d x h
    cases d with
    | nil => exact absurd h (by simp)
    | cons c cs =>
      show (p == c && startsWith ps (cs ++ x)) = (p == c && startsWith ps cs)
      rw [ih cs x (by simpa using h)]

/-- A short block in front of a match is the pattern's own prefix. -/
theorem startsWith_take_eq (pat d x : List Char) (hle : d.length ≤ pat.length)
    (h : startsWith pat (d ++ x) = true) : d = pat.take d.length := by
  obtain ⟨t, ht⟩ := (startsWith_iff pat _).mp h
  have h1 : (d ++ x).take d.length = (pat ++ t).take d.length := by rw [ht]
  rw [List.take_left, List.take_append_of_le_length hle] at h1
  exact h1

theorem containsSub_cons (pat : List Char) (c : Char) (l : List Char) :
    containsSub pat (c :: l) = (startsWith pat (c :: l) || containsSub pat l) := rfl

/-- A pattern matching somewhere inside `x ++ y` at the start of `y` is a
substring occurrence. -/
theorem containsSub_append_startsWith (pat : List Char) (hp : pat ≠ []) :
    ∀ (x y : List Char), startsWith pat y = true → containsSub pat (x ++ y) = true := by
  intro x
  induction x with
  | nil =>
    intro y h
    cases y with
    | nil =>
      cases pat with
      | nil => exact absurd rfl hp
      | cons p ps => simp [startsWith] at h
    | cons c cs =>
      rw [List.nil_append, containsSub_cons, h]
      rfl
  | cons a x ih =>
    intro y h
    rw [List.cons_append, containsSub_cons, ih y h]
    simp

/-- Any substring occurrence of a nonempty pattern puts its first character
into the list. -/
theorem mem_of_containsSub (p : Char) (ps : List Char) : ∀ (l : List Char),
    containsSub (p :: ps) l = true → p ∈ l := by
  intro l
  induction l with
  | nil =>
    intro h
    simp [containsSub] at h
  | cons c cs ih =>
    intro h
    rw [containsSub_cons] at h
    rcases Bool.or_eq_true_iff.mp h with h | h
    · obtain ⟨t, ht⟩ := (startsWith_iff _ _).mp h
      rw [ht]
      simp
    · exact List.mem_cons_of_mem c (ih h)

/-- The pattern `".json"` has no border: no proper nonempty suffix-overlap of the
pattern with itself, so a match can never straddle the boundary between a
block and a final `".json"`. -/
theorem json_border (d : List Char) (h1 : d ≠ []) (h4 : d.length ≤ 4) :
    startsWith ".json".data (d ++ ".json".data) = false := by
  cases hsw : startsWith ".json".data (d ++ ".json".data) with
  | false => rfl
  | true =>
    exfalso
    have hd : d = (".json".data).take d.length :=
      startsWith_take_eq _ d _ (h4.trans (by decide)) hsw
    have hlen1 : 1 ≤ d.length := by
      cases d with
      | nil => exact absurd rfl h1
      | cons _ _ => simp
    have hcases : d.length = 1 ∨ d.length = 2 ∨ d.length = 3 ∨ d.length = 4 := by omega
    rcases hcases with h | h | h | h <;>
      (rw [h] at hd; rw [hd] at hsw; exact absurd hsw (by decide))

/-- Removing `".json"` from `l ++ ".json"` recovers `l` whenever `l` itself
has no `".json"` occurrence. -/
theorem replaceAll_json_append : ∀ (l : List Char),
    containsSub ".json".data l = false →
    replaceAll ".json".data [] (l ++ ".json".data) = l := by
  intro l
  induction l with
  | nil =>
    intro _
    rw [List.nil_append]
    decide
  | cons c l ih =>
    intro hocc
    have hocc2 : startsWith ".json".data (c :: l) = false ∧
        containsSub ".json".data l = false := by
      have h := hocc
      rw [containsSub_cons] at h
      exact ⟨(Bool.or_eq_false_iff.mp h).1, (Bool.or_eq_false_iff.mp h).2⟩
    have hsw : startsWith ".json".data ((c :: l) ++ ".json".data) = false := by
      by_cases hlen : 5 ≤ (c :: l).length
      · rw [startsWith_append_of_le _ _ _ (by simpa using hlen)]
        exact hocc2.1
      · exact json_border (c :: l) (by simp) (by simp only [List.length_cons] at hlen ⊢; omega)
    have hstep : replaceAll ".json".data [] (c :: (l ++ ".json".data)) =
        c :: replaceAll ".json".data [] (l ++ ".json".data) := by
      have hsw2 : startsWith ('.' :: "json".data) (c :: (l ++ '.' :: "json".data)) = false := hsw
      rw [show (".json".data : List Char) = '.' :: "json".data from rfl, replaceAll_cons_eq,
        hsw2, if_neg Bool.false_ne_true]
    rw [List.cons_append, hstep, ih hocc2.2]

/-! ## Lemmas about the `@`-to-`_` substitution -/

/-- Matching a `_`-free pattern against the `@`-substituted list matches
the original list. -/
theorem startsWith_map_subst (pat : List Char) (hpat : '_' ∉ pat) : ∀ (l : List Char),
    startsWith pat (l.map (fun c => if c = '@' then '_' else c)) = true →
    startsWith pat l = true := by
  induction pat with
  | nil =>
    intro l _
    rfl
  | cons p ps ih =>
    intro l h
    cases l with
    | nil => simpa [startsWith] using h
    | cons c cs =>
      simp only [List.map_cons, startsWith, Bool.and_eq_true, beq_iff_eq] at h ⊢
      obtain ⟨hpc, hrest⟩ := h
      have hp : p ≠ '_' := fun hc => hpat (by rw [← hc]; exact List.mem_cons_self p ps)
      refine ⟨?_, ih (fun hm => hpat (List.mem_cons_of_mem p hm)) cs hrest⟩
      by_cases hc : c = '@'
      · rw [if_pos hc] at hpc
        exact absurd hpc hp
      · rw [if_neg hc] at hpc
        exact hpc

/-- A `_`-free substring of the `@`-substituted list is a substring of the
original list. -/
theorem containsSub_map_subst (pat : List Char) (hpat : '_' ∉ pat) : ∀ (l : List Char),
    containsSub pat (l.map (fun c => if c = '@' then '_' else c)) = true →
    containsSub pat l = true := by
  intro l
  induction l with
  | nil =>
    intro h
    exact h
  | cons c cs ih =>
    intro h
    rw [List.map_cons, containsSub_cons] at h
    rw [containsSub_cons]
    rcases Bool.or_eq_true_iff.mp h with h1 | h1
    · have := startsWith_map_subst pat hpat (c :: cs) (by rw [List.map_cons]; exact h1)
      simp [this]
    · simp [ih h1]

/-- The `@`-substitution is the identity on lists equal to a `_`-free
pattern. -/
theorem map_subst_eq_self : ∀ (m pat : List Char), '_' ∉ pat →
    m.map (fun c => if c = '@' then '_' else c) = pat → m = pat := by
  intro m
  induction m with
  | nil =>
    intro pat _ h
    exact h
  | cons c cs ih =>
    intro pat hpat h
    rw [List.map_cons] at h
    cases pat with
    | nil => exact absurd h (by simp)
    | cons p ps =>
      obtain ⟨h1, h2⟩ := List.cons.inj h
      have hp : p ≠ '_' := fun hc => hpat (by rw [← hc]; exact List.mem_cons_self p ps)
      have hc : c = p := by
        by_cases hc2 : c = '@'
        · rw [if_pos hc2] at h1
          exact absurd h1.symm hp
        · rw [if_neg hc2] at h1
          exact h1
      rw [hc, ih ps (fun hm => hpat (List.mem_cons_of_mem p hm)) h2]

/-- Python `split("_", 1)` around the unique underscore. -/
theorem splitFirstUnderscore_append (a : List Char) : ∀ (b : List Char), '_' ∉ b →
    splitFirstUnderscore (b ++ '_' :: a) = some (b, a) := by
  intro b
  induction b with
  | nil =>
    intro _
    rfl
  | cons c b ih =>
    intro hb
    have hc : c ≠ '_' := fun h => hb (by rw [← h]; exact List.mem_cons_self c b)
    have hrest : '_' ∉ b := fun hm => hb (List.mem_cons_of_mem c hm)
    show splitFirstUnderscore (c :: (b ++ '_' :: a)) = some (c :: b, a)
    simp [splitFirstUnderscore, hc, ih hrest]

/-- A list with exactly one occurrence of `x` splits around it. -/
theorem count_one_split : ∀ (l : List Char) (x : Char), l.count x = 1 →
    ∃ l₁ l₂, l = l₁ ++ x :: l₂ ∧ x ∉ l₁ ∧ x ∉ l₂ := by
  intro l
  induction l with
  | nil =>
    intro x h
    simp [List.count_nil] at h
  | cons c cs ih =>
    intro x h
    by_cases hx : x = c
    · subst hx
      have h0 : cs.count x = 0 := by
        rw [List.count_cons] at h
        simp at h
        omega
      exact ⟨[], cs, by simp, by simp, List.count_eq_zero.mp h0⟩
    · have h1 : cs.count x = 1 := by
        rw [List.count_cons] at h
        by_cases hcx : (c == x) = true
        · exact absurd (eq_of_beq hcx).symm hx
        · rw [if_neg hcx] at h
          simpa using h
      obtain ⟨l₁, l₂, heq, hm1, hm2⟩ := ih x h1
      refine ⟨c :: l₁, l₂, by rw [heq]; rfl, ?_, hm2⟩
      simp [List.mem_cons, hx, hm1]

/-- The `@`-substitution is the identity on `@`-free lists. -/
theorem map_subst_id (m : List Char) (hm : '@' ∉ m) :
    m.map (fun c => if c = '@' then '_' else c) = m := by
  induction m with
  | nil => rfl
  | cons c cs ih =>
    rw [List.map_cons, if_neg (fun h => hm (by rw [← h]; exact List.mem_cons_self c cs)),
      ih (fun h => hm (List.mem_cons_of_mem c h))]

theorem mk_data (s : String) : String.mk s.data = s := rfl

/-- Appending the `".json"` extension never yields the empty string. -/
theorem append_json_ne_empty (s : String) : s ++ ".json" ≠ "" := by
  intro h
  have h2 := congrArg String.data h
  rw [String.data_append] at h2
  have h3 := congrArg List.length h2
  rw [List.length_append, show (".json".data : List Char).length = 5 from rfl,
    show (("" : String).data).length = 0 from rfl] at h3
  omega

/-- Evaluation of `filename_to_email` on a nonempty filename. -/
theorem filename_to_email_eval (f : String) (hne : f ≠ "") :
    filename_to_email f =
      if startsWith "anonymous_".data (replaceAll ".json".data [] f.data) = true ∨
          replaceAll ".json".data [] f.data = "anonymous".data then "anonymous"
      else
        match splitFirstUnderscore (replaceAll ".json".data [] f.data) with
        | some (a, b) => String.mk (a ++ '@' :: b)
        | none => String.mk (replaceAll ".json".data [] f.data) := by
  unfold filename_to_email
  rw [if_neg hne]

/-! ## Claim C10: filename round trip -/

/-- Counterexample to C10 as stated: `"anonymous@x.com"` is non-empty, not
`"anonymous"`, contains exactly one `@` and no `_`, yet the round trip
collapses it to `"anonymous"` — `email_to_filename` turns the `@` into the
`_` of the `anonymous_` prefix that `filename_to_email` reserves for
anonymous records. -/
theorem c10_counterexample_collapses_to_anonymous :
    ("anonymous@x.com" ≠ "" ∧ "anonymous@x.com" ≠ "anonymous" ∧
      ("anonymous@x.com" : String).data.count '@' = 1 ∧
      '_' ∉ ("anonymous@x.com" : String).data) ∧
    filename_to_email (email_to_filename "anonymous@x.com" "aabbccddeeff") ≠
      "anonymous@x.com" := by decide

/-- Claim C10 (amended): the filename round trip restores any identity
that is non-empty, differs from `"anonymous"`, has exactly one `@`, no `_`,
no `".json"` substring and does not start with `"anonymous@"`; and for the
empty or `"anonymous"` identity (any uuid draw without a dot) the round
trip yields `"anonymous"`. -/
theorem c10_filename_roundtrip :
    (∀ (e u : String), e ≠ "" → e ≠ "anonymous" → e.data.count '@' = 1 →
      '_' ∉ e.data → containsSub ".json".data e.data = false →
      startsWith "anonymous@".data e.data = false →
      filename_to_email (email_to_filename e u) = e) ∧
    (∀ (e u : String), (e = "" ∨ e = "anonymous") → '.' ∉ u.data →
      filename_to_email (email_to_filename e u) = "anonymous") := by
  constructor
  · intro e u h1 h2 h3 h4 h5 h6
    have hfile : email_to_filename e u =
        String.mk (e.data.map (fun c => if c = '@' then '_' else c)) ++ ".json" := by
      unfold email_to_filename
      rw [if_neg (by rintro (h | h) <;> [exact h1 h; exact h2 h]), replaceAll_single_eq_map]
    have hdata : (String.mk (e.data.map (fun c => if c = '@' then '_' else c)) ++
        ".json").data = e.data.map (fun c => if c = '@' then '_' else c) ++ ".json".data := by
      rw [String.data_append]
    have hocc : containsSub ".json".data
        (e.data.map (fun c => if c = '@' then '_' else c)) = false := by
      cases hc : containsSub ".json".data (e.data.map (fun c => if c = '@' then '_' else c))
      · rfl
      · have := containsSub_map_subst ".json".data (by decide) e.data hc
        rw [this] at h5
        exact Bool.noConfusion h5
    have hname : replaceAll ".json".data []
        (String.mk (e.data.map (fun c => if c = '@' then '_' else c)) ++ ".json").data =
        e.data.map (fun c => if c = '@' then '_' else c) := by
      rw [hdata]
      exact replaceAll_json_append _ hocc
    obtain ⟨b, a, heq, hb, ha⟩ := count_one_split e.data '@' h3
    have hub : '_' ∉ b := fun hm => h4 (by rw [heq]; exact List.mem_append_left _ hm)
    have hmapped : e.data.map (fun c => if c = '@' then '_' else c) = b ++ '_' :: a := by
      rw [heq, List.map_append, List.map_cons, if_pos rfl, map_subst_id b hb,
        map_subst_id a ha]
    have hbranch : ¬(startsWith "anonymous_".data
        (e.data.map (fun c => if c = '@' then '_' else c)) = true ∨
        e.data.map (fun c => if c = '@' then '_' else c) = "anonymous".data) := by
      rintro (hA | hB)
      · obtain ⟨t, ht⟩ := (startsWith_iff _ _).mp hA
        have ht2 : e.data.map (fun c => if c = '@' then '_' else c) =
            "anonymous".data ++ '_' :: t := by
          rw [ht]
          rfl
        obtain ⟨x, y, hxy, hx, hy⟩ := List.map_eq_append_iff.mp ht2
        have hx2 : x = "anonymous".data := map_subst_eq_self x _ (by decide) hx
        cases y with
        | nil => simp at hy
        | cons c y2 =>
          rw [List.map_cons] at hy
          obtain ⟨hc, _⟩ := List.cons.inj hy
          have hc2 : c = '@' := by
            by_cases hat : c = '@'
            · exact hat
            · rw [if_neg hat] at hc
              have hmem : c ∈ e.data := by
                rw [hxy]
                exact List.mem_append_right _ (List.mem_cons_self c y2)
              exact absurd (hc ▸ hmem) h4
          have htrue : startsWith "anonymous@".data e.data = true := by
            rw [hxy, hx2, hc2]
            exact (startsWith_iff _ _).mpr ⟨y2, rfl⟩
          rw [htrue] at h6
          exact Bool.noConfusion h6
      · have := map_subst_eq_self e.data "anonymous".data (by decide) hB
        exact h2 (String.ext this)
    rw [hfile, filename_to_email_eval _ (append_json_ne_empty _), hname,
      if_neg hbranch, hmapped, splitFirstUnderscore_append a b hub]
    show String.mk (b ++ '@' :: a) = e
    rw [← heq]
  · intro e u he hu
    have hfile : email_to_filename e u =
        "anonymous_" ++ String.mk (u.data.take 12) ++ ".json" := by
      unfold email_to_filename
      rw [if_pos he]
    have hdata : (("anonymous_" ++ String.mk (u.data.take 12)) ++ ".json").data =
        ("anonymous_".data ++ u.data.take 12) ++ ".json".data := by
      rw [String.data_append, String.data_append]
    have hocc : containsSub ".json".data ("anonymous_".data ++ u.data.take 12) = false := by
      cases hc : containsSub ".json".data ("anonymous_".data ++ u.data.take 12)
      · rfl
      · exfalso
        have hdot : ('.' : Char) ∈ "anonymous_".data ++ u.data.take 12 :=
          mem_of_containsSub '.' "json".data _ hc
        rcases List.mem_append.mp hdot with hm | hm
        · exact absurd hm (by decide)
        · exact hu (List.take_subset 12 u.data hm)
    have hname : replaceAll ".json".data []
        (("anonymous_" ++ String.mk (u.data.take 12)) ++ ".json").data =
        "anonymous_".data ++ u.data.take 12 := by
      rw [hdata]
      exact replaceAll_json_append _ hocc
    rw [hfile, filename_to_email_eval _ (append_json_ne_empty _), hname,
      if_pos (Or.inl (startsWith_append "anonymous_".data (u.data.take 12)))]

/-- Witness for C10 (amended) at a typical email and at the anonymous
identity. -/
theorem c10_filename_roundtrip_witness :
    filename_to_email (email_to_filename "petr@keboola.com" "aabbccddeeff0011") =
      "petr@keboola.com" ∧
    filename_to_email (email_to_filename "anonymous" "aabbccddeeff0011") = "anonymous" :=
  ⟨c10_filename_roundtrip.1 "petr@keboola.com" "aabbccddeeff0011" (by decide) (by decide)
      (by decide) (by decide) (by decide) (by decide),
    c10_filename_roundtrip.2 "anonymous" "aabbccddeeff0011" (Or.inr rfl) (by decide)⟩

end CeoXmas
